import Mathlib

/-!
Shallow embedding of the shopping-system backend (`src/main.py`,
`src/schemas.py`).

The document store gateway (`database.py`: `db`, `create_document`,
`get_documents`) is repository code that is not under `src/`; it is
modelled from the spec's gateway contract (spec section 4.1): a schemaless
collection store with store-assigned identifiers exposed as strings,
insert/find/update/delete/count, natural order = insertion order.
Python floats are modelled by exact rationals; Python `round(x, 2)` is
modelled as round-half-to-even at two decimal places.
-/

/-- A character the BSON ObjectId parser accepts: a hexadecimal digit. -/
def isHexChar (c : Char) : Bool :=
  c.isDigit || ('a' ≤ c && c ≤ 'f') || ('A' ≤ c && c ≤ 'F')

/-- Modelled from the spec: the store's identifier format (`bson.objectid.ObjectId`):
a string is syntactically valid iff it is exactly 24 hexadecimal characters. -/
def isValidOidStr (s : String) : Bool :=
  s.length == 24 && s.toList.all isHexChar

/-- Character-wise lowercasing of a string. -/
def lowerStr (s : String) : String := String.mk (s.toList.map Char.toLower)

/-- Modelled from the spec: `ObjectId(s)` either succeeds, yielding an identifier
whose string form is the lowercase hex spelling, or raises (`none`). -/
def parseOid (s : String) : Option String :=
  if isValidOidStr s then some (lowerStr s) else none

/-- Modelled from the spec: a deterministic source of fresh store-assigned
identifiers, the n-th one being n written in hex, zero-padded to 24 characters. -/
def oidOfNat (n : Nat) : String :=
  let ds := Nat.toDigits 16 n
  String.mk (List.replicate (24 - ds.length) '0' ++ ds)

/-- `schemas.Category`. -/
structure Category where
  name : String
  slug : String
  description : Option String
  image : Option String
deriving DecidableEq, Repr

/-- `schemas.Product` (floats as exact rationals). -/
structure Product where
  title : String
  description : Option String
  price : ℚ
  compare_at_price : Option ℚ
  category : String
  images : List String
  rating : ℚ
  in_stock : Bool
  tags : List String
deriving DecidableEq, Repr

/-- `schemas.CartItem`; the endpoint's pydantic validation guarantees
`1 ≤ quantity` on entry, stated as a hypothesis where relevant. -/
structure CartItem where
  cart_id : String
  product_id : String
  quantity : Int
deriving DecidableEq, Repr

/-- `schemas.Order` (defined, never written by any operation). -/
structure Order where
  cart_id : String
  items : List CartItem
  subtotal : ℚ
  total : ℚ
  currency : String
  status : String
deriving DecidableEq, Repr

/-- A stored `category` document: store id plus fields. -/
structure CatDoc where
  cid : String
  data : Category
deriving DecidableEq, Repr

/-- A stored `product` document: store id plus fields. -/
structure PDoc where
  pid : String
  data : Product
deriving DecidableEq, Repr

/-- A stored `cartitem` document: store id plus fields. -/
structure ItemDoc where
  iid : String
  item : CartItem
deriving DecidableEq, Repr

/-- A stored `order` document: store id plus fields. -/
structure OrderDoc where
  oid : String
  data : Order
deriving DecidableEq, Repr

/-- Modelled from the spec: the document store's state, one list per collection
in the store's natural (insertion) order, plus the fresh-identifier counter. -/
structure Store where
  categories : List CatDoc
  products : List PDoc
  cartitems : List ItemDoc
  orders : List OrderDoc
  nextOid : Nat
deriving DecidableEq, Repr

/-- The empty store. -/
def Store.empty : Store := ⟨[], [], [], [], 0⟩

/-- `to_str_id` applied to a product document: fields plus the store id
surfaced as string field `id`. -/
structure ProductOut where
  id : String
  data : Product
deriving DecidableEq, Repr

/-- An entry of the `get_cart` response. -/
structure CartEntry where
  id : String
  product : ProductOut
  quantity : Int
deriving DecidableEq, Repr

/-- `CheckoutResponse` from `main.py`. -/
structure CheckoutResponse where
  subtotal : ℚ
  total : ℚ
  currency : String
deriving DecidableEq, Repr

/-- An `HTTPException(code, msg)`. -/
structure HTTPError where
  code : Nat
  msg : String
deriving DecidableEq, Repr

/-- The status string returned by `add_to_cart`. -/
inductive AddStatus where
  | added
  | updated
deriving DecidableEq, Repr

/-- `db["cartitem"].find_one({"cart_id": c, "product_id": p})`: first document
in natural order matching both fields exactly. -/
def findCartItem (s : Store) (c p : String) : Option ItemDoc :=
  s.cartitems.find? (fun r => r.item.cart_id == c && r.item.product_id == p)

/-- `update_one({"_id": id}, {"$inc": {"quantity": q}})`: increments the
quantity of the first document whose id matches. -/
def incQuantityById (rows : List ItemDoc) (id : String) (q : Int) : List ItemDoc :=
  match rows with
  | [] => []
  | r :: rest =>
    if r.iid == id then
      { r with item := { r.item with quantity := r.item.quantity + q } } :: rest
    else
      r :: incQuantityById rest id q

/-- `delete_one({"_id": id})`: removes the first document whose id matches
and reports the deleted count (0 or 1). -/
def deleteFirstById (rows : List ItemDoc) (id : String) : List ItemDoc × Nat :=
  match rows with
  | [] => ([], 0)
  | r :: rest =>
    if r.iid == id then (rest, 1)
    else
      let p := deleteFirstById rest id
      (r :: p.1, p.2)

/-- `add_to_cart` (`main.py` lines 146-154): looks up the row matching
(cart_id, product_id); increments in place if found, else inserts the item
with a fresh store id at the end of the collection. -/
def add_to_cart (s : Store) (item : CartItem) : Store × AddStatus :=
  match findCartItem s item.cart_id item.product_id with
  | some existing =>
    ({ s with cartitems := incQuantityById s.cartitems existing.iid item.quantity }, .updated)
  | none =>
    ({ s with cartitems := s.cartitems ++ [⟨oidOfNat s.nextOid, item⟩],
              nextOid := s.nextOid + 1 }, .added)

/-- `get_product` (`main.py` lines 135-143): `ObjectId(product_id)` failing is
caught and mapped to 404; a missing document is 404; otherwise the document is
returned with its id as a string field. -/
def get_product (s : Store) (product_id : String) : Except HTTPError ProductOut :=
  match parseOid product_id with
  | none => .error ⟨404, "Invalid product id"⟩
  | some oid =>
    match s.products.find? (fun d => d.pid == oid) with
    | none => .error ⟨404, "Product not found"⟩
    | some d => .ok ⟨d.pid, d.data⟩

/-- The loop of `get_cart` (`main.py` lines 158-168). `ObjectId(it["product_id"])`
is not guarded there: a row whose product_id does not parse raises an unhandled
exception, modelled as `none`. Rows whose product is missing are skipped. -/
def get_cart_loop (rows : List ItemDoc) (prods : List PDoc) : Option (List CartEntry) :=
  match rows with
  | [] => some []
  | r :: rest =>
    match parseOid r.item.product_id with
    | none => none
    | some oid =>
      match prods.find? (fun d => d.pid == oid) with
      | some p => (get_cart_loop rest prods).map (fun l => ⟨r.iid, ⟨p.pid, p.data⟩, r.item.quantity⟩ :: l)
      | none => get_cart_loop rest prods

/-- `get_cart` (`main.py` lines 156-168): all rows of the cart joined to their
products; `none` models the unhandled invalid-id exception. -/
def get_cart (s : Store) (cart_id : String) : Option (List CartEntry) :=
  get_cart_loop (s.cartitems.filter (fun r => r.item.cart_id == cart_id)) s.products

/-- `remove_from_cart` (`main.py` lines 170-178): an unparseable id is 400, a
parseable id deleting nothing is 404, otherwise the row is removed. -/
def remove_from_cart (s : Store) (id : String) : Except HTTPError (Store × String) :=
  match parseOid id with
  | none => .error ⟨400, "Invalid id"⟩
  | some oid =>
    let p := deleteFirstById s.cartitems oid
    if p.2 == 0 then .error ⟨404, "Item not found"⟩
    else .ok ({ s with cartitems := p.1 }, "removed")

/-- Round half to even to an integer (Python round on an exact value). -/
def roundHalfEven (x : ℚ) : ℤ :=
  if Int.fract x = 1 / 2 then (if ⌊x⌋ % 2 = 0 then ⌊x⌋ else ⌊x⌋ + 1) else round x

/-- Python `round(x, 2)` over exact rationals. -/
def round2 (x : ℚ) : ℚ := (roundHalfEven (x * 100) : ℚ) / 100

/-- The accumulation loop of `checkout` (`main.py` lines 193-196): like
`get_cart`, `ObjectId(it["product_id"])` is unguarded, so an unparseable
product_id raises (`none`); unresolved products contribute nothing. -/
def checkout_loop (rows : List ItemDoc) (prods : List PDoc) : Option ℚ :=
  match rows with
  | [] => some 0
  | r :: rest =>
    match parseOid r.item.product_id with
    | none => none
    | some oid =>
      (checkout_loop rest prods).map (fun acc =>
        match prods.find? (fun d => d.pid == oid) with
        | some p => acc + p.data.price * (r.item.quantity : ℚ)
        | none => acc)

/-- `checkout` (`main.py` lines 189-198): subtotal over the cart's rows, total
with the fixed 8 percent multiplier, both rounded to two decimals; read-only. -/
def checkout (s : Store) (cart_id : String) : Option CheckoutResponse :=
  (checkout_loop (s.cartitems.filter (fun r => r.item.cart_id == cart_id)) s.products).map
    (fun sub => ⟨round2 sub, round2 (sub * (108 / 100)), "USD"⟩)

/-- Spec-side description of one row's contribution to the checkout subtotal:
price times quantity when the row's product resolves, zero otherwise. -/
def resolvedAmount (prods : List PDoc) (r : ItemDoc) : ℚ :=
  match parseOid r.item.product_id with
  | none => 0
  | some oid =>
    match prods.find? (fun d => d.pid == oid) with
    | some p => p.data.price * (r.item.quantity : ℚ)
    | none => 0

/-- Whether a cart-item row's product reference resolves to a stored product. -/
def resolves (prods : List PDoc) (r : ItemDoc) : Bool :=
  match parseOid r.item.product_id with
  | none => false
  | some oid => (prods.find? (fun d => d.pid == oid)).isSome

/-- A token of the modelled regex fragment: a literal character or the
any-character metacharacter. -/
inductive Rtok where
  | lit (c : Char)
  | dot
deriving DecidableEq, Repr

/-- The regex metacharacters of the store's pattern language. -/
def regexMeta : List Char :=
  ['\\', '^', '$', '.', '|', '?', '*', '+', '(', ')', '[', ']', '\x7b', '\x7d']

/-- Parses a pattern string into the modelled fragment: `.` becomes the
any-character token, a non-metacharacter becomes a literal, and any other
metacharacter puts the pattern outside the fragment (`none`). -/
def parsePatList (cs : List Char) : Option (List Rtok) :=
  match cs with
  | [] => some []
  | c :: rest =>
    if c = '.' then (parsePatList rest).map (fun ts => Rtok.dot :: ts)
    else if regexMeta.contains c then none
    else (parsePatList rest).map (fun ts => Rtok.lit c :: ts)

/-- Parses a pattern string into the modelled regex fragment. -/
def parsePat (q : String) : Option (List Rtok) := parsePatList q.toList

/-- Whether the pattern matches a prefix of the text, case-insensitively. -/
def matchHere : List Rtok → List Char → Bool
  | [], _ => true
  | _ :: _, [] => false
  | .lit c :: ps, x :: xs => (x.toLower == c.toLower) && matchHere ps xs
  | .dot :: ps, _ :: xs => matchHere ps xs

/-- Modelled from the spec: the store's case-insensitive regex search
(`$regex` with `$options: "i"`): the pattern matches at some position. -/
def regexSearch (pat : List Rtok) : List Char → Bool
  | [] => matchHere pat []
  | x :: xs => matchHere pat (x :: xs) || regexSearch pat xs

/-- Whether the first list is a prefix of the second, case-insensitively. -/
def startsWithCI : List Char → List Char → Bool
  | [], _ => true
  | _ :: _, [] => false
  | c :: cs, x :: xs => (x.toLower == c.toLower) && startsWithCI cs xs

/-- Case-insensitive substring search over character lists. -/
def containsSubCI (needle : List Char) : List Char → Bool
  | [] => startsWithCI needle []
  | x :: xs => startsWithCI needle (x :: xs) || containsSubCI needle xs

/-- Whether `needle` occurs in `hay` as a case-insensitive substring: the
spec-side reading of the title filter. -/
def containsCI (hay needle : String) : Bool := containsSubCI needle.toList hay.toList

/-- The category conjunct of the `list_products` filter: Python `if category:`
skips it when the parameter is absent or the empty string. -/
def catFilterOk (category : Option String) (d : PDoc) : Bool :=
  match category with
  | none => true
  | some c => if c = "" then true else d.data.category == c

/-- `to_str_id` on a product document. -/
def toOut (d : PDoc) : ProductOut := ⟨d.pid, d.data⟩

/-- `list_products` (`main.py` lines 125-133): conjunctive filter, equality on
category and `$regex`/`i` on title, each skipped when its parameter is absent
or empty (Python falsiness); `none` when the title pattern falls outside the
modelled regex fragment. -/
def list_products (s : Store) (category q : Option String) : Option (List ProductOut) :=
  match q with
  | none => some ((s.products.filter (catFilterOk category)).map toOut)
  | some qs =>
    if qs = "" then some ((s.products.filter (catFilterOk category)).map toOut)
    else
      (parsePat qs).map (fun pat =>
        (s.products.filter
          (fun d => catFilterOk category d && regexSearch pat d.data.title.toList)).map toOut)

/-- The three categories seeded by `seed_data` (`main.py` lines 69-73). -/
def seedCategories : List Category :=
  [⟨"Featured", "featured", some "Editor's picks", none⟩,
   ⟨"Accessories", "accessories", some "Bags & more", none⟩,
   ⟨"Tech", "tech", some "Gadgets & gear", none⟩]

/-- The three sample products seeded by `seed_data` (`main.py` lines 76-116). -/
def seedProducts : List Product :=
  [⟨"Aurora Leather Tote", some "Premium full‑grain leather tote with magnetic closure.",
    189, some 249, "accessories",
    ["https://images.unsplash.com/photo-1548036328-c9fa89d128fa?q=80&w=1200&auto=format&fit=crop"],
    (49 : ℚ) / 10, true, ["bag", "leather", "tote"]⟩,
   ⟨"Nebula Wireless Earbuds", some "Active noise cancelation with 36h battery life.",
    129, some 159, "tech",
    ["https://images.unsplash.com/photo-1590658268037-6bf12165a8df?q=80&w=1200&auto=format&fit=crop"],
    (47 : ℚ) / 10, true, ["audio", "wireless"]⟩,
   ⟨"Orbit Ceramic Mug", some "Matte ceramic with heat‑retaining double wall.",
    24, some 0, "featured",
    ["https://images.unsplash.com/photo-1504754524776-8f4f37790ca0?q=80&w=1200&auto=format&fit=crop"],
    (48 : ℚ) / 10, true, ["mug", "ceramic"]⟩]

/-- `insert_one` into the `category` collection. -/
def insertCat (s : Store) (c : Category) : Store :=
  { s with categories := s.categories ++ [⟨oidOfNat s.nextOid, c⟩], nextOid := s.nextOid + 1 }

/-- `insert_one`/`insert_many` into the `product` collection. -/
def insertProd (s : Store) (p : Product) : Store :=
  { s with products := s.products ++ [⟨oidOfNat s.nextOid, p⟩], nextOid := s.nextOid + 1 }

/-- `seed_data` (`main.py` lines 64-117): inserts the three fixed categories
when the `category` collection is empty, then the three sample products when
the `product` collection is empty. -/
def seed_data (s : Store) : Store :=
  let s1 := if s.categories.isEmpty then seedCategories.foldl insertCat s else s
  if s1.products.isEmpty then seedProducts.foldl insertProd s1 else s1

/-- A request to one of the data-touching endpoints. -/
inductive Request where
  | listProductsReq (category q : Option String)
  | getProductReq (id : String)
  | addToCartReq (item : CartItem)
  | getCartReq (cart_id : String)
  | removeFromCartReq (id : String)
  | checkoutReq (cart_id : String)
  | seedReq
deriving DecidableEq, Repr

/-- The store state after handling one request (reads leave it untouched;
a failed remove leaves it untouched). -/
def stepState (s : Store) : Request → Store
  | .listProductsReq _ _ => s
  | .getProductReq _ => s
  | .addToCartReq item => (add_to_cart s item).1
  | .getCartReq _ => s
  | .removeFromCartReq id =>
    match remove_from_cart s id with
    | .ok p => p.1
    | .error _ => s
  | .checkoutReq _ => s
  | .seedReq => seed_data s

/-- The cart-item rows of one cart, in natural order. -/
def cartRows (s : Store) (c : String) : List ItemDoc :=
  s.cartitems.filter (fun r => r.item.cart_id == c)

/-- The `get_cart` entry a row produces, when its product reference parses and
resolves; `none` when the referenced product is missing. -/
def entryOf? (prods : List PDoc) (r : ItemDoc) : Option CartEntry :=
  match parseOid r.item.product_id with
  | none => none
  | some oid =>
    (prods.find? (fun d => d.pid == oid)).map (fun p => ⟨r.iid, ⟨p.pid, p.data⟩, r.item.quantity⟩)

/-- Well-formedness of the product collection's identifiers: each stored id is
its own parse (valid lowercase hex) and ids are pairwise distinct. -/
def productIdsOk (s : Store) : Prop :=
  (∀ d ∈ s.products, parseOid d.pid = some d.pid) ∧ (s.products.map PDoc.pid).Nodup

/-- A concrete store-assigned identifier. -/
def oidA : String := "0123456789abcdef01234567"

/-- A second concrete store-assigned identifier. -/
def oidB : String := "aaaaaaaaaaaaaaaaaaaaaaaa"

/-- A concrete product priced at 100.00. -/
def widget : Product := ⟨"Widget", none, 100, none, "tech", [], 24 / 5, true, []⟩

/-- A store holding `widget` and a cart `"c1"` with that product at quantity 2. -/
def storeQuote : Store := ⟨[], [⟨oidA, widget⟩], [⟨oidB, ⟨"c1", oidA, 2⟩⟩], [], 0⟩

/-- A store whose only cart row references a product by a malformed id. -/
def storeBadRef : Store := ⟨[], [], [⟨oidB, ⟨"c1", "deleted-product", 1⟩⟩], [], 0⟩

/-- A concrete product whose title is `"ab"`. -/
def abProduct : Product := ⟨"ab", none, 10, none, "tech", [], 24 / 5, true, []⟩

/-- A store holding only `abProduct`. -/
def storeAB : Store := ⟨[], [⟨oidA, abProduct⟩], [], [], 0⟩

/-- The store after seeding an empty store once. -/
def storeSeeded : Store := seed_data Store.empty

/-- A store with one product and a cart holding one resolvable row and one
well-formed but unresolvable row. -/
def storeGhost : Store :=
  ⟨[], [⟨oidA, widget⟩],
   [⟨"bbbbbbbbbbbbbbbbbbbbbbbb", ⟨"c1", oidB, 1⟩⟩,
    ⟨"cccccccccccccccccccccccc", ⟨"c1", oidA, 2⟩⟩], [], 0⟩

/-- The deleted count is zero exactly when no row carries the id. -/
theorem deleteFirstById_count_zero (rows : List ItemDoc) (id : String) :
    (deleteFirstById rows id).2 = 0 ↔ ∀ r ∈ rows, r.iid ≠ id := by
  induction rows with
  | nil => simp [deleteFirstById]
  | cons r rest ih =>
    rcases eq_or_ne r.iid id with h | h
    · simp [deleteFirstById, h]
    · simp [deleteFirstById, h, ih]

/-- A successful delete removes exactly one row. -/
theorem deleteFirstById_length (rows : List ItemDoc) (id : String)
    (h : (deleteFirstById rows id).2 ≠ 0) :
    (deleteFirstById rows id).1.length + 1 = rows.length := by
  induction rows with
  | nil => simp [deleteFirstById] at h
  | cons r rest ih =>
    rcases eq_or_ne r.iid id with hre | hre
    · simp [deleteFirstById, hre]
    · simp [deleteFirstById, hre] at h ⊢
      have := ih h
      omega

/-- Every surviving row was in the collection. -/
theorem deleteFirstById_subset (rows : List ItemDoc) (id : String) :
    ∀ r ∈ (deleteFirstById rows id).1, r ∈ rows := by
  induction rows with
  | nil => simp [deleteFirstById]
  | cons r rest ih =>
    intro a ha
    rcases eq_or_ne r.iid id with hre | hre
    · simp [deleteFirstById, hre] at ha
      exact List.mem_cons_of_mem _ ha
    · simp [deleteFirstById, hre] at ha
      rcases ha with rfl | ha
      · exact List.mem_cons_self _ _
      · exact List.mem_cons_of_mem _ (ih a ha)

/-- Rows not carrying the id survive the delete. -/
theorem deleteFirstById_keep (rows : List ItemDoc) (id : String) :
    ∀ r ∈ rows, r.iid ≠ id → r ∈ (deleteFirstById rows id).1 := by
  induction rows with
  | nil => simp
  | cons r rest ih =>
    intro a ha hne
    rcases eq_or_ne r.iid id with hre | hre
    · simp [deleteFirstById, hre]
      rcases List.mem_cons.mp ha with rfl | h2
      · exact absurd hre hne
      · exact h2
    · simp [deleteFirstById, hre]
      rcases List.mem_cons.mp ha with rfl | h2
      · exact Or.inl rfl
      · exact Or.inr (ih a h2 hne)

/-- The increment rewrites quantities only: every row keeps a successor with
the same id, cart and product reference. -/
theorem incQuantityById_mem (rows : List ItemDoc) (id : String) (q : Int) :
    ∀ r0 ∈ rows, ∃ r ∈ incQuantityById rows id q,
      r.iid = r0.iid ∧ r.item.cart_id = r0.item.cart_id ∧
      r.item.product_id = r0.item.product_id := by
  induction rows with
  | nil => simp
  | cons r rest ih =>
    intro r0 h0
    rcases eq_or_ne r.iid id with hre | hre
    · simp only [incQuantityById, beq_iff_eq.mpr hre, if_pos rfl]
      rcases List.mem_cons.mp h0 with rfl | h2
      · exact ⟨_, List.mem_cons_self _ _, rfl, rfl, rfl⟩
      · exact ⟨r0, List.mem_cons_of_mem _ h2, rfl, rfl, rfl⟩
    · simp only [incQuantityById, beq_eq_false_iff_ne.mpr hre, Bool.false_eq_true, if_false]
      rcases List.mem_cons.mp h0 with rfl | h2
      · exact ⟨r0, List.mem_cons_self _ _, rfl, rfl, rfl⟩
      · obtain ⟨r1, hr1, he⟩ := ih r0 h2
        exact ⟨r1, List.mem_cons_of_mem _ hr1, he⟩

/-- Incrementing skips a whole leading block free of the id. -/
theorem incQuantityById_append (l1 l2 : List ItemDoc) (id : String) (q : Int)
    (h : ∀ r ∈ l1, r.iid ≠ id) :
    incQuantityById (l1 ++ l2) id q = l1 ++ incQuantityById l2 id q := by
  induction l1 with
  | nil => simp
  | cons r rest ih =>
    have hr : r.iid ≠ id := h r (List.mem_cons_self _ _)
    simp only [List.cons_append, incQuantityById, beq_eq_false_iff_ne.mpr hr,
      Bool.false_eq_true, if_false, List.cons.injEq, true_and]
    exact ih (fun a ha => h a (List.mem_cons_of_mem _ ha))

/-- A find over a concatenation whose first block fails the predicate. -/
theorem find?_append_of_none {α : Type} (f : α → Bool) (l1 l2 : List α)
    (h : l1.find? f = none) : (l1 ++ l2).find? f = l2.find? f := by
  induction l1 with
  | nil => simp
  | cons a t ih =>
    rcases hf : f a with _ | _
    · rw [List.find?_cons_of_neg _ (by simp [hf])] at h
      rw [List.cons_append, List.find?_cons_of_neg _ (by simp [hf])]
      exact ih h
    · rw [List.find?_cons_of_pos _ hf] at h
      exact absurd h (by simp)

/-- C4: `get_product` fails with the same NotFound error (HTTP 404) in exactly
two cases — the id string is syntactically invalid, or it is valid but no
product document matches — and never otherwise errs (it is a total function
whose every error is a 404); an id that resolves returns the document with its
identifier surfaced as string field `id`. -/
theorem getProduct_notFound_cases (s : Store) (id : String) :
    (parseOid id = none → get_product s id = .error ⟨404, "Invalid product id"⟩) ∧
    (∀ oid, parseOid id = some oid →
      s.products.find? (fun d => d.pid == oid) = none →
      get_product s id = .error ⟨404, "Product not found"⟩) ∧
    (∀ oid d, parseOid id = some oid →
      s.products.find? (fun d => d.pid == oid) = some d →
      get_product s id = .ok ⟨d.pid, d.data⟩) ∧
    (∀ e, get_product s id = .error e → e.code = 404) := by
  refine ⟨fun h => by simp [get_product, h],
          fun oid h hf => by simp [get_product, h, hf],
          fun oid d h hf => by simp [get_product, h, hf], ?_⟩
  intro e he
  rcases hp : parseOid id with _ | oid
  · simp only [get_product, hp, Except.error.injEq] at he
    rw [← he]
  · rcases hf : s.products.find? (fun d => d.pid == oid) with _ | d
    · simp only [get_product, hp, hf, Except.error.injEq] at he
      rw [← he]
    · simp only [get_product, hp, hf] at he
      exact absurd he (by simp)

/-- Instances of `getProduct_notFound_cases`: a malformed id and a well-formed
unmatched id both yield 404. -/
theorem getProduct_notFound_cases_witness :
    get_product Store.empty "zz" = .error ⟨404, "Invalid product id"⟩ ∧
    get_product Store.empty oidA = .error ⟨404, "Product not found"⟩ :=
  ⟨(getProduct_notFound_cases Store.empty "zz").1 (by decide),
   (getProduct_notFound_cases Store.empty oidA).2.1 oidA (by decide) (by decide)⟩

/-- C5: `remove_from_cart` fails 400 exactly on a malformed identifier, 404
exactly on a well-formed identifier matching no cart-item row, and otherwise
deletes exactly the matching row (by the cart-item's own identifier) leaving
all other collections and all non-matching rows untouched, with status
removed. -/
theorem removeFromCart_cases (s : Store) (id : String) :
    (parseOid id = none → remove_from_cart s id = .error ⟨400, "Invalid id"⟩) ∧
    (∀ oid, parseOid id = some oid → (∀ r ∈ s.cartitems, r.iid ≠ oid) →
      remove_from_cart s id = .error ⟨404, "Item not found"⟩) ∧
    (∀ oid, parseOid id = some oid → ¬(∀ r ∈ s.cartitems, r.iid ≠ oid) →
      ∃ t, remove_from_cart s id = .ok (t, "removed") ∧
        t.cartitems.length + 1 = s.cartitems.length ∧
        (∀ r ∈ t.cartitems, r ∈ s.cartitems) ∧
        (∀ r ∈ s.cartitems, r.iid ≠ oid → r ∈ t.cartitems) ∧
        t.products = s.products ∧ t.categories = s.categories ∧
        t.orders = s.orders) := by
  refine ⟨fun h => by simp [remove_from_cart, h], ?_, ?_⟩
  · intro oid h hnone
    have hz : (deleteFirstById s.cartitems oid).2 = 0 :=
      (deleteFirstById_count_zero s.cartitems oid).mpr hnone
    simp [remove_from_cart, h, hz]
  · intro oid h hsome
    have hz : (deleteFirstById s.cartitems oid).2 ≠ 0 := by
      intro hz
      exact hsome ((deleteFirstById_count_zero s.cartitems oid).mp hz)
    refine ⟨{ s with cartitems := (deleteFirstById s.cartitems oid).1 }, ?_, ?_, ?_, ?_, rfl, rfl, rfl⟩
    · simp [remove_from_cart, h, hz]
    · exact deleteFirstById_length s.cartitems oid hz
    · exact deleteFirstById_subset s.cartitems oid
    · exact deleteFirstById_keep s.cartitems oid

/-- Instances of `removeFromCart_cases`: malformed id is 400, unmatched id is
404, and a matching id removes the row. -/
theorem removeFromCart_cases_witness :
    remove_from_cart storeQuote "!!" = .error ⟨400, "Invalid id"⟩ ∧
    remove_from_cart storeQuote oidA = .error ⟨404, "Item not found"⟩ ∧
    ∃ t, remove_from_cart storeQuote oidB = .ok (t, "removed") ∧
      t.cartitems.length + 1 = storeQuote.cartitems.length ∧
      (∀ r ∈ t.cartitems, r ∈ storeQuote.cartitems) ∧
      (∀ r ∈ storeQuote.cartitems, r.iid ≠ oidB → r ∈ t.cartitems) ∧
      t.products = storeQuote.products ∧ t.categories = storeQuote.categories ∧
      t.orders = storeQuote.orders :=
  ⟨(removeFromCart_cases storeQuote "!!").1 (by decide),
   (removeFromCart_cases storeQuote oidA).2.1 oidA (by decide) (by decide),
   (removeFromCart_cases storeQuote oidB).2.2 oidB (by decide) (by decide)⟩

/-- C10: `add_to_cart` performs no validation of product_id beyond it being a
string: for every store and every item with quantity at least 1 the call
succeeds with status added or updated and leaves a row carrying that cart id
and product id; concretely, on an empty store an unparseable product id
creates a row while the product collection stays empty, so the row references
no existing product. -/
theorem addToCart_unvalidated :
    (∀ (s : Store) (it : CartItem), 1 ≤ it.quantity →
      ((add_to_cart s it).2 = .added ∨ (add_to_cart s it).2 = .updated) ∧
      ∃ r ∈ (add_to_cart s it).1.cartitems,
        r.item.cart_id = it.cart_id ∧ r.item.product_id = it.product_id) ∧
    ((add_to_cart Store.empty ⟨"c1", "no-such-product", 1⟩).1.cartitems =
       [⟨oidOfNat 0, ⟨"c1", "no-such-product", 1⟩⟩] ∧
     parseOid "no-such-product" = none ∧
     (add_to_cart Store.empty ⟨"c1", "no-such-product", 1⟩).1.products = []) := by
  refine ⟨?_, by decide, by decide, by decide⟩
  intro s it hq
  rcases hf : findCartItem s it.cart_id it.product_id with _ | e
  · refine ⟨Or.inl (by simp [add_to_cart, hf]), ⟨oidOfNat s.nextOid, it⟩, ?_, rfl, rfl⟩
    simp [add_to_cart, hf]
  · have he := List.find?_some hf
    have hmem := List.mem_of_find?_eq_some hf
    simp only [Bool.and_eq_true, beq_iff_eq] at he
    refine ⟨Or.inr (by simp [add_to_cart, hf]), ?_⟩
    obtain ⟨r, hr, h1, h2, h3⟩ := incQuantityById_mem s.cartitems e.iid it.quantity e hmem
    refine ⟨r, ?_, by rw [h2, he.1], by rw [h3, he.2]⟩
    simp [add_to_cart, hf]
    exact hr

/-- Instance of `addToCart_unvalidated` on an empty store. -/
theorem addToCart_unvalidated_witness :
    ((add_to_cart Store.empty ⟨"a", "b", 1⟩).2 = .added ∨
     (add_to_cart Store.empty ⟨"a", "b", 1⟩).2 = .updated) ∧
    ∃ r ∈ (add_to_cart Store.empty ⟨"a", "b", 1⟩).1.cartitems,
      r.item.cart_id = "a" ∧ r.item.product_id = "b" :=
  addToCart_unvalidated.1 Store.empty ⟨"a", "b", 1⟩ (by decide)

/-- The category-seeding stage leaves a non-empty category collection and the
other collections untouched. -/
theorem seedCats_stage (s : Store) :
    (seedCategories.foldl insertCat s).categories.isEmpty = false ∧
    (seedCategories.foldl insertCat s).products = s.products ∧
    (seedCategories.foldl insertCat s).cartitems = s.cartitems ∧
    (seedCategories.foldl insertCat s).orders = s.orders := by
  simp [seedCategories, insertCat]

/-- The product-seeding stage leaves a non-empty product collection and the
other collections untouched. -/
theorem seedProds_stage (s : Store) :
    (seedProducts.foldl insertProd s).products.isEmpty = false ∧
    (seedProducts.foldl insertProd s).categories = s.categories ∧
    (seedProducts.foldl insertProd s).cartitems = s.cartitems ∧
    (seedProducts.foldl insertProd s).orders = s.orders := by
  simp [seedProducts, insertProd]

/-- After one seed, both seeded collections are non-empty. -/
theorem seed_data_nonempty (s : Store) :
    (seed_data s).categories.isEmpty = false ∧ (seed_data s).products.isEmpty = false := by
  unfold seed_data
  by_cases hc : s.categories.isEmpty = true
  · rw [if_pos hc]
    by_cases hp : (seedCategories.foldl insertCat s).products.isEmpty = true
    · rw [if_pos hp]
      constructor
      · rw [(seedProds_stage _).2.1]
        exact (seedCats_stage s).1
      · exact (seedProds_stage _).1
    · rw [if_neg hp]
      exact ⟨(seedCats_stage s).1, eq_false_of_ne_true hp⟩
  · rw [if_neg hc]
    by_cases hp : s.products.isEmpty = true
    · rw [if_pos hp]
      constructor
      · rw [(seedProds_stage _).2.1]
        exact eq_false_of_ne_true hc
      · exact (seedProds_stage s).1
    · rw [if_neg hp]
      exact ⟨eq_false_of_ne_true hc, eq_false_of_ne_true hp⟩

/-- Seeding a store whose seeded collections are already non-empty changes
nothing. -/
theorem seed_data_noop (s : Store) (h1 : s.categories.isEmpty = false)
    (h2 : s.products.isEmpty = false) : seed_data s = s := by
  unfold seed_data
  rw [if_neg (show ¬s.categories.isEmpty = true by rw [h1]; exact Bool.false_ne_true)]
  rw [if_neg (show ¬s.products.isEmpty = true by rw [h2]; exact Bool.false_ne_true)]

/-- C8: the startup seeding is idempotent: seeding twice equals seeding once
(so in particular the category and product document counts are unchanged by
the second invocation), and once a seeded collection is non-empty the seed is
a no-op for it. -/
theorem seed_data_idempotent (s : Store) :
    seed_data (seed_data s) = seed_data s ∧
    (seed_data (seed_data s)).categories.length = (seed_data s).categories.length ∧
    (seed_data (seed_data s)).products.length = (seed_data s).products.length ∧
    (s.categories ≠ [] → (seed_data s).categories = s.categories) ∧
    (s.products ≠ [] → (seed_data s).products = s.products) := by
  have hne := seed_data_nonempty s
  have hid : seed_data (seed_data s) = seed_data s := seed_data_noop _ hne.1 hne.2
  refine ⟨hid, by rw [hid], by rw [hid], ?_, ?_⟩
  · intro hc
    have hcb : ¬s.categories.isEmpty = true := by
      rw [List.isEmpty_eq_false.mpr hc]; exact Bool.false_ne_true
    unfold seed_data
    rw [if_neg hcb]
    by_cases hp : s.products.isEmpty = true
    · rw [if_pos hp]
      exact (seedProds_stage s).2.1
    · rw [if_neg hp]
  · intro hp
    have hpb : s.products.isEmpty = false := List.isEmpty_eq_false.mpr hp
    unfold seed_data
    by_cases hc : s.categories.isEmpty = true
    · rw [if_pos hc]
      rw [if_neg (by rw [(seedCats_stage s).2.1, hpb]; exact Bool.false_ne_true)]
      exact (seedCats_stage s).2.1
    · rw [if_neg hc, if_neg (by rw [hpb]; exact Bool.false_ne_true)]

/-- Instance of `seed_data_idempotent` at a store already holding a category
and a product. -/
theorem seed_data_idempotent_witness :
    seed_data (seed_data storeQuote) = seed_data storeQuote ∧
    (seed_data storeQuote).products = storeQuote.products :=
  ⟨(seed_data_idempotent storeQuote).1,
   (seed_data_idempotent storeQuote).2.2.2.2 (by decide)⟩

/-- Seeding never touches the order collection. -/
theorem seed_data_orders (s : Store) : (seed_data s).orders = s.orders := by
  unfold seed_data
  by_cases hc : s.categories.isEmpty = true
  · rw [if_pos hc]
    by_cases hp : (seedCategories.foldl insertCat s).products.isEmpty = true
    · rw [if_pos hp, (seedProds_stage _).2.2.2, (seedCats_stage s).2.2.2]
    · rw [if_neg hp, (seedCats_stage s).2.2.2]
  · rw [if_neg hc]
    by_cases hp : s.products.isEmpty = true
    · rw [if_pos hp, (seedProds_stage s).2.2.2]
    · rw [if_neg hp]

/-- C9: checkout is read-only — handling a checkout request returns the store
state unchanged, every collection included — and moreover no request of the
system ever changes the order collection: no Order document is created. -/
theorem checkout_readonly (s : Store) (c : String) :
    stepState s (.checkoutReq c) = s ∧ ∀ r : Request, (stepState s r).orders = s.orders := by
  refine ⟨rfl, ?_⟩
  intro r
  cases r with
  | listProductsReq a b => rfl
  | getProductReq i => rfl
  | getCartReq c2 => rfl
  | checkoutReq c2 => rfl
  | addToCartReq it =>
    show ((add_to_cart s it).1).orders = s.orders
    rcases hf : findCartItem s it.cart_id it.product_id with _ | e <;> simp [add_to_cart, hf]
  | removeFromCartReq i =>
    rcases hp : parseOid i with _ | oid
    · simp [stepState, remove_from_cart, hp]
    · by_cases hz : ((deleteFirstById s.cartitems oid).2 == 0) = true
      · simp [stepState, remove_from_cart, hp, hz]
      · simp [stepState, remove_from_cart, hp, hz]
  | seedReq => exact seed_data_orders s

/-- C1: `add_to_cart` looks up the row matching (cart_id, product_id) by exact
equality, inserting a fresh row with the given quantity (status added) when
none exists and incrementing the found row's quantity in place (status
updated) otherwise; in particular two successive adds of quantity 1 to a cart
with no matching row leave exactly one matching row, of quantity 2, with
statuses added then updated. -/
theorem addToCart_upsert (s : Store) (c p : String) (q : Int) (hq : 1 ≤ q) :
    (findCartItem s c p = none →
      add_to_cart s ⟨c, p, q⟩ =
        ({ s with cartitems := s.cartitems ++ [⟨oidOfNat s.nextOid, ⟨c, p, q⟩⟩],
                  nextOid := s.nextOid + 1 }, .added)) ∧
    (∀ e, findCartItem s c p = some e →
      add_to_cart s ⟨c, p, q⟩ =
        ({ s with cartitems := incQuantityById s.cartitems e.iid q }, .updated)) ∧
    ((∀ r ∈ s.cartitems, ¬(r.item.cart_id = c ∧ r.item.product_id = p)) →
     (∀ r ∈ s.cartitems, r.iid ≠ oidOfNat s.nextOid) →
      (add_to_cart s ⟨c, p, 1⟩).2 = .added ∧
      (add_to_cart (add_to_cart s ⟨c, p, 1⟩).1 ⟨c, p, 1⟩).2 = .updated ∧
      ((add_to_cart (add_to_cart s ⟨c, p, 1⟩).1 ⟨c, p, 1⟩).1.cartitems.filter
         (fun r => r.item.cart_id == c && r.item.product_id == p)).length = 1 ∧
      ∀ r ∈ (add_to_cart (add_to_cart s ⟨c, p, 1⟩).1 ⟨c, p, 1⟩).1.cartitems,
        r.item.cart_id = c → r.item.product_id = p → r.item.quantity = 2) := by
  refine ⟨fun h => by simp [add_to_cart, h], fun e h => by simp [add_to_cart, h], ?_⟩
  intro hno hfresh
  have h0 : findCartItem s c p = none := by
    refine List.find?_eq_none.mpr fun r hr => ?_
    simp only [Bool.and_eq_true, beq_iff_eq, not_and]
    exact fun h1 h2 => hno r hr ⟨h1, h2⟩
  have e1 : add_to_cart s ⟨c, p, 1⟩ =
      ({ s with cartitems := s.cartitems ++ [⟨oidOfNat s.nextOid, ⟨c, p, 1⟩⟩],
                nextOid := s.nextOid + 1 }, .added) := by
    simp [add_to_cart, h0]
  set s1 := (add_to_cart s ⟨c, p, 1⟩).1 with hs1
  have hcart1 : s1.cartitems =
      s.cartitems ++ [⟨oidOfNat s.nextOid, ⟨c, p, 1⟩⟩] := by rw [hs1, e1]
  have hpred : (fun r : ItemDoc => r.item.cart_id == c && r.item.product_id == p)
      ⟨oidOfNat s.nextOid, ⟨c, p, 1⟩⟩ = true := by simp
  have hfind2 : findCartItem s1 c p = some ⟨oidOfNat s.nextOid, ⟨c, p, 1⟩⟩ := by
    unfold findCartItem
    rw [hcart1, find?_append_of_none _ _ _ h0]
    exact List.find?_cons_of_pos _ hpred
  have e2 : add_to_cart s1 ⟨c, p, 1⟩ =
      ({ s1 with cartitems := incQuantityById s1.cartitems (oidOfNat s.nextOid) 1 },
       .updated) := by
    simp [add_to_cart, hfind2]
  have hinc : incQuantityById s1.cartitems (oidOfNat s.nextOid) 1 =
      s.cartitems ++ [⟨oidOfNat s.nextOid, ⟨c, p, 2⟩⟩] := by
    rw [hcart1, incQuantityById_append _ _ _ _ hfresh]
    simp [incQuantityById]
  have hcart2 : (add_to_cart s1 ⟨c, p, 1⟩).1.cartitems =
      s.cartitems ++ [⟨oidOfNat s.nextOid, ⟨c, p, 2⟩⟩] := by
    rw [e2]
    exact hinc
  refine ⟨by rw [e1], by rw [e2], ?_, ?_⟩
  · rw [hcart2, List.filter_append]
    rw [List.filter_eq_nil_iff.mpr fun r hr => ?_, List.nil_append]
    · simp
    · simp only [Bool.and_eq_true, beq_iff_eq, not_and]
      exact fun h1 h2 => hno r hr ⟨h1, h2⟩
  · intro r hr h1 h2
    rw [hcart2] at hr
    rcases List.mem_append.mp hr with hr | hr
    · exact absurd ⟨h1, h2⟩ (hno r hr)
    · rcases List.mem_singleton.mp hr with rfl
      rfl

/-- Instance of `addToCart_upsert` on the empty store: the two-call law at a
concrete cart and product id. -/
theorem addToCart_upsert_witness :
    (add_to_cart Store.empty ⟨"c1", oidA, 1⟩).2 = .added ∧
    (add_to_cart (add_to_cart Store.empty ⟨"c1", oidA, 1⟩).1 ⟨"c1", oidA, 1⟩).2 = .updated ∧
    ((add_to_cart (add_to_cart Store.empty ⟨"c1", oidA, 1⟩).1 ⟨"c1", oidA, 1⟩).1.cartitems.filter
       (fun r => r.item.cart_id == "c1" && r.item.product_id == oidA)).length = 1 ∧
    ∀ r ∈ (add_to_cart (add_to_cart Store.empty ⟨"c1", oidA, 1⟩).1 ⟨"c1", oidA, 1⟩).1.cartitems,
      r.item.cart_id = "c1" → r.item.product_id = oidA → r.item.quantity = 2 :=
  (addToCart_upsert Store.empty "c1" oidA 1 (by decide)).2.2 (by decide) (by decide)

/-- A defined checkout accumulation equals the sum of the rows' resolved
contributions. -/
theorem checkout_loop_eq_sum (rows : List ItemDoc) (prods : List PDoc) (v : ℚ)
    (h : checkout_loop rows prods = some v) :
    v = (rows.map (resolvedAmount prods)).sum := by
  induction rows generalizing v with
  | nil =>
    simp only [checkout_loop, Option.some.injEq] at h
    simp [← h]
  | cons r rest ih =>
    rcases hp : parseOid r.item.product_id with _ | oid
    · simp only [checkout_loop, hp] at h
      exact absurd h (by simp)
    · simp only [checkout_loop, hp, Option.map_eq_some'] at h
      obtain ⟨acc, hacc, hv⟩ := h
      rcases hf : prods.find? (fun d => d.pid == oid) with _ | p
      · rw [hf] at hv
        rw [← hv, ih acc hacc, List.map_cons, List.sum_cons]
        simp [resolvedAmount, hp, hf]
      · rw [hf] at hv
        rw [← hv, ih acc hacc, List.map_cons, List.sum_cons]
        simp only [resolvedAmount, hp, hf]
        exact add_comm _ _

/-- When every row's product reference parses, the checkout accumulation is
defined and equals the sum of resolved contributions. -/
theorem checkout_loop_some (rows : List ItemDoc) (prods : List PDoc)
    (hw : ∀ r ∈ rows, (parseOid r.item.product_id).isSome = true) :
    checkout_loop rows prods = some ((rows.map (resolvedAmount prods)).sum) := by
  induction rows with
  | nil => simp [checkout_loop]
  | cons r rest ih =>
    obtain ⟨oid, hp⟩ := Option.isSome_iff_exists.mp (hw r (List.mem_cons_self _ _))
    simp only [checkout_loop, hp]
    rw [ih (fun a ha => hw a (List.mem_cons_of_mem _ ha))]
    rcases hf : prods.find? (fun d => d.pid == oid) with _ | p
    · simp only [ Option.map_some', List.map_cons, List.sum_cons, resolvedAmount, hp, hf,
        Option.some.injEq]
      simp
    · simp only [ Option.map_some', List.map_cons, List.sum_cons, resolvedAmount, hp, hf,
        Option.some.injEq]
      exact add_comm _ _

/-- C2: a defined checkout response carries subtotal = the 2-decimal rounding
of the sum of price times quantity over the cart's resolvable rows, total =
the 2-decimal rounding of that sum times 1.08, and currency USD (Python float
arithmetic modelled by exact rationals). -/
theorem checkout_arithmetic (s : Store) (c : String) (resp : CheckoutResponse)
    (h : checkout s c = some resp) :
    resp.subtotal = round2 (((cartRows s c).map (resolvedAmount s.products)).sum) ∧
    resp.total = round2 ((((cartRows s c).map (resolvedAmount s.products)).sum) * (108 / 100)) ∧
    resp.currency = "USD" := by
  unfold checkout at h
  rw [ Option.map_eq_some'] at h
  obtain ⟨sub, hsub, hresp⟩ := h
  have hs : sub = ((cartRows s c).map (resolvedAmount s.products)).sum :=
    checkout_loop_eq_sum _ _ _ hsub
  rw [← hresp, ← hs]
  exact ⟨rfl, rfl, rfl⟩

/-- Instance of `checkout_arithmetic`: one item at price 100.00 and quantity 2
gives subtotal 200.00 and total 216.00. -/
theorem checkout_arithmetic_witness :
    checkout storeQuote "c1" = some ⟨200, 216, "USD"⟩ ∧
    (200 : ℚ) = round2 (((cartRows storeQuote "c1").map (resolvedAmount storeQuote.products)).sum) ∧
    (216 : ℚ) = round2 ((((cartRows storeQuote "c1").map (resolvedAmount storeQuote.products)).sum) * (108 / 100)) := by
  have hp : parseOid oidA = some oidA := by decide
  have hrows : cartRows storeQuote "c1" = [⟨oidB, ⟨"c1", oidA, 2⟩⟩] := by decide
  have he : checkout storeQuote "c1" = some ⟨200, 216, "USD"⟩ := by
    unfold checkout
    show (checkout_loop (cartRows storeQuote "c1") storeQuote.products).map _ = _
    rw [hrows]
    simp only [checkout_loop, hp]
    have hf : storeQuote.products.find? (fun d => d.pid == oidA) = some ⟨oidA, widget⟩ := by
      rw [show storeQuote.products = [⟨oidA, widget⟩] from rfl]
      exact List.find?_cons_of_pos _ (by simp)
    rw [hf]
    simp only [ Option.map_some', Option.some.injEq]
    have h1 : (0 : ℚ) + widget.price * ((2 : ℤ) : ℚ) = 200 := by
      norm_num [widget]
    rw [h1]
    refine congrArg₂ (fun a b => CheckoutResponse.mk a b "USD") ?_ ?_
    · norm_num [round2, roundHalfEven, Int.fract, round_eq]
    · norm_num [round2, roundHalfEven, Int.fract, round_eq]
  have hc := checkout_arithmetic storeQuote "c1" ⟨200, 216, "USD"⟩ he
  exact ⟨he, hc.1, hc.2.1⟩

/-- When every row's product reference parses, the cart join is defined and
keeps exactly the rows whose product resolves. -/
theorem get_cart_loop_some (rows : List ItemDoc) (prods : List PDoc)
    (hw : ∀ r ∈ rows, (parseOid r.item.product_id).isSome = true) :
    get_cart_loop rows prods = some (rows.filterMap (entryOf? prods)) := by
  induction rows with
  | nil => simp [get_cart_loop]
  | cons r rest ih =>
    obtain ⟨oid, hp⟩ := Option.isSome_iff_exists.mp (hw r (List.mem_cons_self _ _))
    have ih2 := ih (fun a ha => hw a (List.mem_cons_of_mem _ ha))
    rcases hf : prods.find? (fun d => d.pid == oid) with _ | p
    · simp [get_cart_loop, hp, hf, List.filterMap_cons, entryOf?, ih2]
    · simp [get_cart_loop, hp, hf, List.filterMap_cons, entryOf?, ih2]

/-- C3 (amended): when every product reference of the cart parses as a store
identifier, `get_cart` succeeds and keeps exactly the resolvable rows, an
unresolvable row yields no entry and a zero subtotal contribution, and
`checkout` succeeds with the subtotal over resolvable rows only. -/
theorem unresolvable_rows_dropped (s : Store) (c : String)
    (hw : ∀ r ∈ cartRows s c, (parseOid r.item.product_id).isSome = true) :
    get_cart s c = some ((cartRows s c).filterMap (entryOf? s.products)) ∧
    (∀ r, resolves s.products r = false →
      entryOf? s.products r = none ∧ resolvedAmount s.products r = 0) ∧
    checkout s c = some ⟨round2 (((cartRows s c).map (resolvedAmount s.products)).sum),
      round2 ((((cartRows s c).map (resolvedAmount s.products)).sum) * (108 / 100)),
      "USD"⟩ := by
  refine ⟨?_, ?_, ?_⟩
  · unfold get_cart
    exact get_cart_loop_some _ _ hw
  · intro r hr
    rcases hp : parseOid r.item.product_id with _ | oid
    · exact ⟨by simp [entryOf?, hp], by simp [resolvedAmount, hp]⟩
    · rcases hx : s.products.find? (fun d => d.pid == oid) with _ | p
      · exact ⟨by simp [entryOf?, hp, hx], by simp [resolvedAmount, hp, hx]⟩
      · rw [show resolves s.products r = true from by simp [resolves, hp, hx]] at hr
        exact absurd hr (by simp)
  · have hcl := checkout_loop_some (cartRows s c) s.products hw
    unfold cartRows at hcl
    unfold checkout
    rw [hcl]
    rfl

/-- Instance of `unresolvable_rows_dropped` at a cart holding one resolvable
row and one well-formed but unresolvable row. -/
theorem unresolvable_rows_dropped_witness :
    get_cart storeGhost "c1" =
      some ((cartRows storeGhost "c1").filterMap (entryOf? storeGhost.products)) ∧
    checkout storeGhost "c1" =
      some ⟨round2 (((cartRows storeGhost "c1").map (resolvedAmount storeGhost.products)).sum),
        round2 ((((cartRows storeGhost "c1").map (resolvedAmount storeGhost.products)).sum) * (108 / 100)),
        "USD"⟩ :=
  ⟨(unresolvable_rows_dropped storeGhost "c1" (by decide)).1,
   (unresolvable_rows_dropped storeGhost "c1" (by decide)).2.2⟩

/-- C3 counterexample: a cart-item row whose product_id is not even a
well-formed store identifier makes both `get_cart` and `checkout` raise the
unhandled invalid-id exception instead of silently dropping the row. -/
theorem getCart_malformed_ref_raises :
    get_cart storeBadRef "c1" = none ∧ checkout storeBadRef "c1" = none ∧
    parseOid "deleted-product" = none ∧ storeBadRef.products = [] := by
  refine ⟨by decide, by decide, by decide, by decide⟩

/-- A pattern free of metacharacters parses to the list of its literals. -/
theorem parsePatList_lits (cs : List Char) (h : ∀ ch ∈ cs, ¬regexMeta.contains ch = true) :
    parsePatList cs = some (cs.map Rtok.lit) := by
  induction cs with
  | nil => simp [parsePatList]
  | cons c rest ih =>
    have hm : regexMeta.contains c = false :=
      eq_false_of_ne_true (h c (List.mem_cons_self _ _))
    have hc : c ≠ '.' := by
      intro he
      rw [he] at hm
      exact absurd hm (by decide)
    have hnm : c ∉ regexMeta := by simpa using hm
    simp [parsePatList, hc, hm, hnm, ih (fun a ha => h a (List.mem_cons_of_mem _ ha))]

/-- An all-literal pattern matches a prefix exactly when the literals are a
case-insensitive prefix. -/
theorem matchHere_lits (cs : List Char) (xs : List Char) :
    matchHere (cs.map Rtok.lit) xs = startsWithCI cs xs := by
  induction cs generalizing xs with
  | nil => cases xs <;> simp [matchHere, startsWithCI]
  | cons c rest ih =>
    cases xs with
    | nil => simp [matchHere, startsWithCI]
    | cons x xs => simp [matchHere, startsWithCI, ih]

/-- An all-literal pattern searches exactly as case-insensitive substring
containment. -/
theorem regexSearch_lits (cs : List Char) (xs : List Char) :
    regexSearch (cs.map Rtok.lit) xs = containsSubCI cs xs := by
  induction xs with
  | nil => simp [regexSearch, containsSubCI, matchHere_lits]
  | cons x xs ih => simp [regexSearch, containsSubCI, matchHere_lits, ih]

/-- An absent category filter accepts everything. -/
theorem catFilterOk_none : catFilterOk none = fun _ => true := rfl

/-- An empty category filter accepts everything. -/
theorem catFilterOk_empty : catFilterOk (some "") = fun _ => true := by
  funext d
  simp [catFilterOk]

/-- A non-empty category filter is exact equality on the category field. -/
theorem catFilterOk_some (cat : String) (h : cat ≠ "") :
    catFilterOk (some cat) = fun d => d.data.category == cat := by
  funext d
  simp [catFilterOk, h]

/-- C6 (amended): `list_products` treats an absent or empty category and query
as no filter; a non-empty category filters by exact equality; a non-empty
query is a case-insensitive regex on the title, which coincides with
case-insensitive substring containment whenever the query holds no regex
metacharacter. -/
theorem listProducts_filter_semantics (s : Store) (cat q : String) (copt : Option String) :
    (list_products s none none = some (s.products.map toOut)) ∧
    (list_products s (some "") none = some (s.products.map toOut)) ∧
    (list_products s copt (some "") = list_products s copt none) ∧
    (cat ≠ "" → list_products s (some cat) none =
      some ((s.products.filter (fun d => d.data.category == cat)).map toOut)) ∧
    (q ≠ "" → (∀ ch ∈ q.toList, ¬regexMeta.contains ch = true) →
      list_products s copt (some q) =
        some ((s.products.filter
          (fun d => catFilterOk copt d && containsCI d.data.title q)).map toOut)) := by
  refine ⟨by simp [list_products, catFilterOk_none],
          by simp [list_products, catFilterOk_empty], by simp [list_products], ?_, ?_⟩
  · intro h
    simp [list_products, catFilterOk_some cat h]
  · intro hq hmeta
    have hp : parsePat q = some (q.toList.map Rtok.lit) := parsePatList_lits _ hmeta
    simp [list_products, hq, hp, regexSearch_lits, containsCI]

/-- Instances of `listProducts_filter_semantics` with a non-empty category and
a metacharacter-free query. -/
theorem listProducts_filter_semantics_witness :
    list_products storeAB (some "tech") none =
      some ((storeAB.products.filter (fun d => d.data.category == "tech")).map toOut) ∧
    list_products storeAB none (some "AB") =
      some ((storeAB.products.filter
        (fun d => catFilterOk none d && containsCI d.data.title "AB")).map toOut) :=
  ⟨(listProducts_filter_semantics storeAB "tech" "AB" none).2.2.2.1 (by decide),
   (listProducts_filter_semantics storeAB "tech" "AB" none).2.2.2.2 (by decide) (by decide)⟩

/-- C6 counterexample: with the catalog holding one product titled "ab" in
category "tech", the query "." returns the product although "." is not a
substring of "ab" (the query is a regex pattern, not a literal), and the
provided-but-empty category "" applies no equality filter. -/
theorem listProducts_regex_counterexample :
    list_products storeAB none (some ".") = some [toOut ⟨oidA, abProduct⟩] ∧
    containsCI "ab" "." = false ∧
    list_products storeAB (some "") none = some [toOut ⟨oidA, abProduct⟩] ∧
    abProduct.category = "tech" :=
  ⟨rfl, by decide, rfl, rfl⟩

/-- Every entry of a defined product listing is a stored document rendered by
`to_str_id`. -/
theorem listProducts_shape (s : Store) (cat q : Option String) (l : List ProductOut)
    (hl : list_products s cat q = some l) :
    ∃ φ : PDoc → Bool, l = (s.products.filter φ).map toOut := by
  rcases q with _ | qs
  · refine ⟨catFilterOk cat, ?_⟩
    simp only [list_products, Option.some.injEq] at hl
    exact hl.symm
  · by_cases hq : qs = ""
    · refine ⟨catFilterOk cat, ?_⟩
      subst hq
      simp [list_products] at hl
      exact hl.symm
    · rcases hp : parsePat qs with _ | pat
      · simp [list_products, hq, hp] at hl
      · refine ⟨fun d => catFilterOk cat d && regexSearch pat d.data.title.toList, ?_⟩
        simp [list_products, hq, hp] at hl
        exact hl.symm

/-- C7: for any id appearing in a defined `list_products` output (under any
filter), `get_product` on that id succeeds and returns a document whose
fields equal the listed entry's, provided the stored product ids are
well-formed and distinct. -/
theorem listProducts_getProduct_roundtrip (s : Store) (cat q : Option String)
    (l : List ProductOut) (hok : productIdsOk s) (hl : list_products s cat q = some l) :
    ∀ out ∈ l, get_product s out.id = .ok out := by
  obtain ⟨φ, rfl⟩ := listProducts_shape s cat q l hl
  intro out ho
  obtain ⟨d, hdf, rfl⟩ := List.mem_map.mp ho
  have hd : d ∈ s.products := (List.mem_filter.mp hdf).1
  have hp : parseOid d.pid = some d.pid := hok.1 d hd
  have hsome : (s.products.find? (fun x => x.pid == d.pid)).isSome :=
    List.find?_isSome.mpr ⟨d, hd, by simp⟩
  obtain ⟨dd, hdd⟩ := Option.isSome_iff_exists.mp hsome
  have hddmem := List.mem_of_find?_eq_some hdd
  have hddeq : dd.pid = d.pid := by simpa using List.find?_some hdd
  have heq : dd = d := List.inj_on_of_nodup_map hok.2 hddmem hd hddeq
  subst heq
  show get_product s (toOut dd).id = .ok (toOut dd)
  simp [get_product, toOut, hp, hdd]

/-- Instance of `listProducts_getProduct_roundtrip` at the one-product
catalog. -/
theorem listProducts_getProduct_roundtrip_witness :
    get_product storeAB (toOut ⟨oidA, abProduct⟩).id = .ok (toOut ⟨oidA, abProduct⟩) :=
  listProducts_getProduct_roundtrip storeAB none none [toOut ⟨oidA, abProduct⟩]
    ⟨by decide, by decide⟩ rfl (toOut ⟨oidA, abProduct⟩) (List.mem_singleton.mpr rfl)
